import Mathlib

set_option maxHeartbeats 1000000

/-!
Verification development for the my-findr report decryption engine and
location fusion engine.

The decryption pipeline (`decrypt-payload` and the batch orchestrator
`getReportsForDevice`) is embedded as computable functions over byte lists
(`List ℤ`, a byte being a JavaScript number), with the trusted cryptographic
primitives (base64 transport, the p224 curve operations, SHA-256 and AES-GCM)
abstracted as a `CryptoOracle` record, exactly at the call boundaries the
source uses.  JavaScript 32-bit signed bitwise semantics (`<<`, `|`, `>>`,
`&`) are modelled explicitly, as is `Uint8Array.subarray` clamping.

The fusion engine (`calculateBestLocation`, `haversineMeters`) is embedded
over ℝ, idealising JavaScript floating point as exact real arithmetic.
-/

namespace MyFindr

/-- JavaScript `ToUint32`: the representative of an integer modulo 2^32. -/
def toUint32 (n : ℤ) : ℕ := (n % 4294967296).toNat

/-- JavaScript `ToInt32`: reduce modulo 2^32 into the signed range. -/
def toInt32 (n : ℤ) : ℤ :=
  if n % 4294967296 ≥ 2147483648 then n % 4294967296 - 4294967296
  else n % 4294967296

/-- JavaScript `a << k` on 32-bit integers (result is a signed int32). -/
def jsShl (a : ℤ) (k : ℕ) : ℤ := toInt32 (a * 2 ^ k)

/-- JavaScript `a | b` on 32-bit integers (result is a signed int32). -/
def jsOr (a b : ℤ) : ℤ := toInt32 (Int.ofNat (Nat.lor (toUint32 a) (toUint32 b)))

/-- JavaScript `a >> k` (sign-propagating right shift on int32). -/
def jsShr (a : ℤ) (k : ℕ) : ℤ := Int.fdiv (toInt32 a) (2 ^ k)

/-- JavaScript `a & b` on 32-bit integers. -/
def jsAnd (a b : ℤ) : ℤ := toInt32 (Int.ofNat (Nat.land (toUint32 a) (toUint32 b)))

/-- Source `readUInt32BE`: `(b[o] << 24) | (b[o+1] << 16) | (b[o+2] << 8) | b[o+3]`.
A missing index is JavaScript `undefined`, which the bitwise operators coerce
to 0, hence `getD _ 0`.  Note the JavaScript operators are signed 32-bit. -/
def readUInt32BE (byteArray : List ℤ) (offset : ℕ) : ℤ :=
  jsOr
    (jsOr
      (jsOr (jsShl (byteArray.getD offset 0) 24) (jsShl (byteArray.getD (offset + 1) 0) 16))
      (jsShl (byteArray.getD (offset + 2) 0) 8))
    (byteArray.getD (offset + 3) 0)

/-- Source `parseHexChar`: `code - (code < 58 ? 48 : code < 97 ? 55 : 87)`. -/
def parseHexChar (c : Char) : ℤ :=
  let code : ℤ := c.toNat
  code - (if code < 58 then 48 else if code < 97 then 55 else 87)

/-- The loop body of `hexStringToByteArray`: each pair of hex characters
becomes `(parseHexChar c1 << 4) | parseHexChar c2`. -/
def hexPairsToBytes : List Char → List ℤ
  | c1 :: c2 :: rest => jsOr (jsShl (parseHexChar c1) 4) (parseHexChar c2) :: hexPairsToBytes rest
  | _ => []

/-- Source `hexStringToByteArray`: throws (here `none`) when the hex string
has odd length, otherwise converts hex character pairs to bytes. -/
def hexStringToByteArray (hexString : String) : Option (List ℤ) :=
  if hexString.length % 2 ≠ 0 then none
  else some (hexPairsToBytes hexString.toList)

/-- Behaviour of `BN.prototype.toString(16)`: minimal-length lowercase hexadecimal rendering
of a natural number, with no left padding ("0" for zero). -/
def bnToHex (x : ℕ) : String := String.mk (Nat.toDigits 16 x)

/-- Source `padStart(n, c)` on strings (used with `(56, "0")` only in
`getAdvertisementKeyFromKeyPair`; `getECDHKeyDerivation` does NOT pad). -/
def padStart (s : String) (n : ℕ) (c : Char) : String :=
  if n ≤ s.length then s else String.mk (List.replicate (n - s.length) c ++ s.toList)

/-- Behaviour of `Uint8Array.prototype.subarray(s, e)`: negative indices count from the
end, indices are clamped to `[0, length]`, and a crossed range is empty. -/
def jsSubarray (b : List ℤ) (s e : ℤ) : List ℤ :=
  let len : ℤ := b.length
  let s2 : ℤ := if s < 0 then max (len + s) 0 else min s len
  let e2 : ℤ := if e < 0 then max (len + e) 0 else min e len
  (b.drop s2.toNat).take (e2 - s2).toNat

/-- The trusted cryptographic and transport primitives the source imports
(`atob`/`btoa`, the `elliptic` p224 curve, `crypto.subtle`).  Each field is
one library call boundary of the source; a `none` result models the library
call throwing. -/
structure CryptoOracle where
  base64Decode : String → Option (List ℤ)
  base64Encode : List ℤ → String
  keyFromPrivate : List ℤ → Option ℕ
  pubX : ℕ → ℕ
  decodePoint : List ℤ → Option (ℕ × ℕ)
  deriveX : ℕ → ℕ × ℕ → ℕ
  sha256 : List ℤ → List ℤ
  aesGcmDecrypt : List ℤ → List ℤ → List ℤ → Option (List ℤ)

/-- The source has no error taxonomy of its own (every failure is a generic
thrown `Error`); these kinds name the individual failure sites of the
pipeline, following the specification's classification.  `malformedPayload`
is the kind the specification assigns to length/shape violations. -/
inductive ErrKind
  | invalidKey
  | invalidPoint
  | authenticationFailed
  | malformedPayload
  | badBase64
  | sharedSecretHexError
deriving DecidableEq

/-- Source `getECDHKeyDerivation`: renders the derived shared point's
x-coordinate with `toString(16)` (minimal hex, unpadded) and converts it with
`hexStringToByteArray`, which throws on an odd-length string. -/
def getECDHKeyDerivation (o : CryptoOracle) (privateKey : ℕ) (ephemeralPublicKey : ℕ × ℕ) :
    Option (List ℤ) :=
  hexStringToByteArray (bnToHex (o.deriveX privateKey ephemeralPublicKey))

/-- Source `keyDerivation`: SHA-256 of secret ‖ 00 00 00 01 ‖ ephemeral key. -/
def keyDerivation (o : CryptoOracle) (secretByteArray ephemeralKeyByteArray : List ℤ) : List ℤ :=
  o.sha256 (secretByteArray ++ [0, 0, 0, 1] ++ ephemeralKeyByteArray)

/-- Source `decryptEncryptedData`: AES-GCM decrypt with key = first 16 bytes
of the symmetric material, iv = the rest (`subarray(16)`), and the tag
appended to the ciphertext. -/
def decryptEncryptedData (o : CryptoOracle) (encryptedData symmetricKey tag : List ℤ) :
    Option (List ℤ) :=
  o.aesGcmDecrypt (symmetricKey.take 16) (symmetricKey.drop 16) (encryptedData ++ tag)

/-- Milliseconds of `Date.UTC(2001, 0, 1)`. -/
def epoch2001ms : ℤ := 978307200000

/-- Source `decodeSeenTime`: epoch 2001-01-01T00:00:00Z plus
`readUInt32BE(payload, 0)` seconds, as milliseconds since the JS epoch. -/
def decodeSeenTime (payloadByteArray : List ℤ) : ℤ :=
  epoch2001ms + readUInt32BE payloadByteArray 0 * 1000

/-- Source `decodeConfidence`: byte 4 of the raw payload (JS `undefined`,
here `none`, when the payload is shorter). -/
def decodeConfidence (payloadByteArray : List ℤ) : Option ℤ :=
  payloadByteArray.get? 4

/-- Type `BatteryStatus` from `types.ts`. -/
inductive BatteryStatus
  | Full
  | Medium
  | Low
  | Critical
  | Unknown
deriving DecidableEq

/-- Type `DeviceLocation` as decoded from the plaintext (`decodeLocation`):
latitude and longitude are scaled int32 reads, accuracy is a direct index
which is `undefined` when the plaintext is shorter than 9 bytes. -/
structure DeviceLocation where
  latitude : ℚ
  longitude : ℚ
  accuracy : Option ℤ
deriving DecidableEq

/-- Source `decodeLocation`. -/
def decodeLocation (payloadArrayBuffer : List ℤ) : DeviceLocation :=
  { latitude := (readUInt32BE payloadArrayBuffer 0 : ℚ) / 10000000
    longitude := (readUInt32BE payloadArrayBuffer 4 : ℚ) / 10000000
    accuracy := payloadArrayBuffer.get? 8 }

/-- Source `batteryMap`. -/
def batteryMap : List BatteryStatus := [.Full, .Medium, .Low, .Critical]

/-- Source `decodeBatteryStatus`: `(statusByte >> 6) & 0b11` indexes
`batteryMap`; a missing byte 9 is coerced to 0 by the shift. -/
def decodeBatteryStatus (decryptedData : List ℤ) : BatteryStatus :=
  let statusByte := decryptedData.getD 9 0
  batteryMap.getD (jsAnd (jsShr statusByte 6) 3).toNat .Unknown

/-- Type `DecryptedPayload` from `types.ts`; `date` is the `Date` as milliseconds
since the JS epoch. -/
structure DecryptedPayload where
  date : ℤ
  confidence : Option ℤ
  battery : BatteryStatus
  location : DeviceLocation
deriving DecidableEq

/-- The `ephemeralKeyBytes` slice: `subarray(len - 16 - 10 - 57, len - 16 - 10)`. -/
def ephemeralKeyBytesOf (p : List ℤ) : List ℤ :=
  jsSubarray p ((p.length : ℤ) - 16 - 10 - 57) ((p.length : ℤ) - 16 - 10)

/-- The `encryptedData` slice: `subarray(len - 16 - 10, len - 16)`. -/
def encryptedDataOf (p : List ℤ) : List ℤ :=
  jsSubarray p ((p.length : ℤ) - 16 - 10) ((p.length : ℤ) - 16)

/-- The `tag` slice: `subarray(len - 16)`. -/
def tagOf (p : List ℤ) : List ℤ :=
  jsSubarray p ((p.length : ℤ) - 16) (p.length : ℤ)

/-- Source `decryptPayload` after base64 decoding, on raw byte lists: slices
the tail of the payload into ephemeral key / ciphertext / tag (with
`subarray` clamping and NO length check), performs ECDH, the KDF and
authenticated decryption, then decodes the payload.  Each `.error` is the
failure site of the corresponding library call or of
`hexStringToByteArray`. -/
def decryptPayloadBytes (o : CryptoOracle) (payloadByteArray privateKeyByteArray : List ℤ) :
    Except ErrKind DecryptedPayload :=
  match o.keyFromPrivate privateKeyByteArray with
  | none => .error .invalidKey
  | some privateKeyPair =>
    match o.decodePoint (ephemeralKeyBytesOf payloadByteArray) with
    | none => .error .invalidPoint
    | some ephemeralKeyPair =>
      match getECDHKeyDerivation o privateKeyPair ephemeralKeyPair with
      | none => .error .sharedSecretHexError
      | some sharedKeyBytes =>
        match decryptEncryptedData o (encryptedDataOf payloadByteArray)
            (keyDerivation o sharedKeyBytes (ephemeralKeyBytesOf payloadByteArray))
            (tagOf payloadByteArray) with
        | none => .error .authenticationFailed
        | some decryptedDataByteArray =>
          .ok { date := decodeSeenTime payloadByteArray
                confidence := decodeConfidence payloadByteArray
                battery := decodeBatteryStatus decryptedDataByteArray
                location := decodeLocation decryptedDataByteArray }

/-- Source `decryptPayload`: base64-decodes the payload and the private key,
then runs the byte-level pipeline. -/
def decryptPayload (o : CryptoOracle) (payloadBase64 privateKeyBase64 : String) :
    Except ErrKind DecryptedPayload :=
  match o.base64Decode payloadBase64 with
  | none => .error .badBase64
  | some payloadByteArray =>
    match o.base64Decode privateKeyBase64 with
    | none => .error .badBase64
    | some privateKeyByteArray => decryptPayloadBytes o payloadByteArray privateKeyByteArray

/-- Source `getAdvertisementKey` (with `getAdvertisementKeyFromKeyPair`
inlined): the public x-coordinate is rendered as hex, left-padded to 56
characters, converted to bytes, hashed with SHA-256 and base64-encoded.  A
failure of base64 decoding or of scalar interpretation is the
`InvalidKey` failure of the identity module. -/
def getAdvertisementKey (o : CryptoOracle) (privateKeyBase64 : String) : Except ErrKind String :=
  match o.base64Decode privateKeyBase64 with
  | none => .error .invalidKey
  | some privateKeyByteArray =>
    match o.keyFromPrivate privateKeyByteArray with
    | none => .error .invalidKey
    | some privateKeyPair =>
      match hexStringToByteArray (padStart (bnToHex (o.pubX privateKeyPair)) 56 '0') with
      | none => .error .invalidKey
      | some advBytes => .ok (o.base64Encode (o.sha256 advBytes))

/-- Type `DeviceReport` input shape (`types.ts`), before decryption. -/
structure RawReport where
  payload : String
  id : String
  receivedAt : Option String
deriving DecidableEq

/-- Type `DeviceReport` after the orchestrator attached `decrypedPayload`. -/
structure DeviceReport where
  payload : String
  id : String
  receivedAt : Option String
  decrypedPayload : Option DecryptedPayload
deriving DecidableEq

/-- Type `Device` from `types.ts` (the fields the decryption engine touches). -/
structure Device where
  id : String
  name : String
  privateKey : String
  advertismentKey : String
deriving DecidableEq

/-- Value `new Date(r.decrypedPayload.date).getTime()` of the sort comparator. -/
def dateOf (r : DeviceReport) : ℤ := (r.decrypedPayload.map (·.date)).getD 0

/-- The ascending comparator of the final sort in `getReportsForDevice`. -/
def dateLE (a b : DeviceReport) : Prop := dateOf a ≤ dateOf b

instance : DecidableRel dateLE := fun a b => inferInstanceAs (Decidable (dateOf a ≤ dateOf b))

instance : IsTotal DeviceReport dateLE := ⟨fun a b => le_total (dateOf a) (dateOf b)⟩

instance : IsTrans DeviceReport dateLE := ⟨fun _ _ _ h1 h2 => le_trans h1 h2⟩

/-- The stable sort `decryptedReports.sort((a, b) => aDate - bDate)`. -/
def sortReports (l : List DeviceReport) : List DeviceReport := l.insertionSort dateLE

/-- Source `decryptReport` (the per-report closure of
`getReportsForDevice`): a successful decryption attaches the payload and
pushes the report; the `catch` arm drops the report (`none`). -/
def decryptReport (o : CryptoOracle) (privateKey : String) (report : RawReport) :
    Option DeviceReport :=
  match decryptPayload o report.payload privateKey with
  | .ok decryptedPayload =>
      some { payload := report.payload, id := report.id, receivedAt := report.receivedAt,
             decrypedPayload := some decryptedPayload }
  | .error _ => none

/-- Source `getReportsForDevice`, with the transport fetch abstracted away
(the raw reports are an input): line 13 overwrites `device.advertismentKey`
outside any try/catch — modelled by returning the updated device — and each
report is decrypted behind a per-report catch, then sorted ascending by
decoded date. -/
def getReportsForDevice (o : CryptoOracle) (device : Device) (reports : List RawReport) :
    Except ErrKind (Device × List DeviceReport) :=
  match getAdvertisementKey o device.privateKey with
  | .error e => .error e
  | .ok advKey =>
      .ok ({ device with advertismentKey := advKey },
           sortReports (reports.filterMap (decryptReport o device.privateKey)))

namespace Fusion

/-- The location fields as the fusion filter sees them: each may be missing
(`loc?.latitude != null` guards), and present values are idealised reals. -/
structure DeviceLocation where
  latitude : Option ℝ
  longitude : Option ℝ
  accuracy : Option ℝ

/-- The decoded payload fields the fusion engine reads: the `Date` (as
milliseconds since the JS epoch) and the location, each possibly absent. -/
structure DecryptedPayload where
  date : Option ℤ
  location : Option DeviceLocation

/-- A report as the fusion engine receives it: `decrypedPayload` may be
absent (`r?.decrypedPayload?` guard). -/
structure DeviceReport where
  decrypedPayload : Option DecryptedPayload

/-- Accessor `r?.decrypedPayload?.location`. -/
def locOf (r : DeviceReport) : Option DeviceLocation := r.decrypedPayload.bind (·.location)

/-- Accessor `loc.latitude` as the arithmetic reads it (it is only read after the
validity filter ensured presence; the default is never consulted there). -/
def rLat (r : DeviceReport) : ℝ := ((locOf r).bind (·.latitude)).getD 0

/-- Accessor `loc.longitude`, as `rLat`. -/
def rLon (r : DeviceReport) : ℝ := ((locOf r).bind (·.longitude)).getD 0

/-- Accessor `loc.accuracy`, as `rLat`. -/
def rAcc (r : DeviceReport) : ℝ := ((locOf r).bind (·.accuracy)).getD 0

/-- Accessor `r.decrypedPayload.date.getTime()` in milliseconds. -/
def rTime (r : DeviceReport) : ℤ := (r.decrypedPayload.bind (·.date)).getD 0

/-- The validity filter of `calculateBestLocation`: latitude, longitude,
accuracy and date present, and both coordinates within range. -/
def IsValidReport (r : DeviceReport) : Prop :=
  ((locOf r).bind (·.latitude)).isSome = true ∧
  ((locOf r).bind (·.longitude)).isSome = true ∧
  ((locOf r).bind (·.accuracy)).isSome = true ∧
  (r.decrypedPayload.bind (·.date)).isSome = true ∧
  |rLat r| ≤ 90 ∧ |rLon r| ≤ 180

/-- The `filter` stage of `calculateBestLocation` (real-number comparisons
are decided classically). -/
noncomputable def validOf (deviceReports : List DeviceReport) : List DeviceReport :=
  deviceReports.filter (fun r => @decide (IsValidReport r) (Classical.propDecidable _))

/-- The descending comparator `(a, b) => b.date - a.date`: `a` sorts before
`b` when `b`'s time is not larger. -/
def moreRecent (a b : DeviceReport) : Prop := rTime b ≤ rTime a

instance : DecidableRel moreRecent := fun a b => inferInstanceAs (Decidable (rTime b ≤ rTime a))

instance : IsTotal DeviceReport moreRecent := ⟨fun a b => le_total (rTime b) (rTime a)⟩

instance : IsTrans DeviceReport moreRecent := ⟨fun _ _ _ h1 h2 => le_trans h2 h1⟩

/-- The `.filter(...).sort(...)` prefix of `calculateBestLocation`. -/
noncomputable def sortValid (deviceReports : List DeviceReport) : List DeviceReport :=
  (validOf deviceReports).insertionSort moreRecent

/-- Function `Math.atan2 y x` for real arguments. -/
noncomputable def atan2 (y x : ℝ) : ℝ :=
  if 0 < x then Real.arctan (y / x)
  else if x < 0 then
    (if 0 ≤ y then Real.arctan (y / x) + Real.pi else Real.arctan (y / x) - Real.pi)
  else (if 0 < y then Real.pi / 2 else if y < 0 then -(Real.pi / 2) else 0)

/-- Source `toRad`. -/
noncomputable def toRad (d : ℝ) : ℝ := d * Real.pi / 180

/-- Source `haversineMeters` with mean Earth radius 6 371 000 m. -/
noncomputable def haversineMeters (lat1 lon1 lat2 lon2 : ℝ) : ℝ :=
  let dLat := toRad (lat2 - lat1)
  let dLon := toRad (lon2 - lon1)
  let a := Real.sin (dLat / 2) ^ 2 +
    Real.cos (toRad lat1) * Real.cos (toRad lat2) * Real.sin (dLon / 2) ^ 2
  6371000 * 2 * atan2 (Real.sqrt a) (Real.sqrt (1 - a))

/-- The weight of one cluster member at fusion time `now` (milliseconds):
`(1 / max(1, accuracy)) * 0.5 ** ageHours` with
`ageHours = (now - seenAt) / 3_600_000` (a continuous real exponent). -/
noncomputable def weightAt (now : ℝ) (r : DeviceReport) : ℝ :=
  let ageHours := (now - (rTime r : ℝ)) / 3600000
  (1 / max 1 (rAcc r)) * (0.5 : ℝ) ^ ageHours

/-- The cluster filter: every valid report within `CLUSTER_RADIUS_M = 500`
haversine meters of the cluster center. -/
noncomputable def clusterAround (center : DeviceReport) (valid : List DeviceReport) :
    List DeviceReport :=
  valid.filter (fun r =>
    @decide (haversineMeters (rLat center) (rLon center) (rLat r) (rLon r) ≤ 500)
      (Classical.propDecidable _))

/-- The cluster `calculateBestLocation` aggregates over: anchored at the
head of the descending-sorted valid reports. -/
noncomputable def clusterOf (deviceReports : List DeviceReport) : List DeviceReport :=
  match sortValid deviceReports with
  | [] => []
  | newest :: rest => clusterAround newest (newest :: rest)

/-- The return shape of `calculateBestLocation`. -/
structure FusedLocation where
  lat : ℝ
  lon : ℝ
  reportsInCluster : ℕ
  totalValidReports : ℕ

/-- Source `calculateBestLocation` at fusion time `now` (`Date.now()` in
milliseconds): filter to valid reports, sort descending by date, return
`null` (`none`) when none remain; otherwise build the 500 m cluster around
the most recent valid report and return the weight-normalised centroid with
the two counts. -/
noncomputable def calculateBestLocation (now : ℝ) (deviceReports : List DeviceReport) :
    Option FusedLocation :=
  match sortValid deviceReports with
  | [] => none
  | newest :: rest =>
    let cluster := clusterAround newest (newest :: rest)
    some { lat := (cluster.map (fun r => rLat r * weightAt now r)).sum /
                    (cluster.map (weightAt now)).sum
           lon := (cluster.map (fun r => rLon r * weightAt now r)).sum /
                    (cluster.map (weightAt now)).sum
           reportsInCluster := cluster.length
           totalValidReports := (newest :: rest).length }

/-- The weight formula exactly as the specification words it:
`(1 / max(1, accuracy)) * 0.5 ^ ageHours`, where `ageHours` is the
continuous age in hours of the report's date relative to fusion time.
Stated separately from the source's `weightAt` for comparison. -/
noncomputable def specWeight (now : ℝ) (r : DeviceReport) : ℝ :=
  (1 / max 1 (rAcc r)) * (0.5 : ℝ) ^ ((now - (rTime r : ℝ)) / 3600000)

/-- A concrete report that passes the validity filter: date present
(epoch), latitude 45, longitude 9, accuracy 5. -/
noncomputable def sampleValidReport : DeviceReport :=
  { decrypedPayload := some
      { date := some 0
        location := some { latitude := some 45, longitude := some 9, accuracy := some 5 } } }

/-- A concrete report the validity filter rejects (no decoded payload). -/
def sampleInvalidReport : DeviceReport := { decrypedPayload := none }

end Fusion

/-- A concrete, fully computable instantiation of the trusted primitives,
used to evaluate the pipeline at concrete inputs: transport decodes a string
to its character codes, the curve operations return fixed small values
(`deriveX` = 171 = 0xab so the shared-secret hex has even length), SHA-256
returns a fixed 32-byte digest and AES-GCM accepts everything with a fixed
10-byte plaintext. -/
def sampleOracle : CryptoOracle where
  base64Decode := fun s => some (s.toList.map (fun c => (c.toNat : ℤ)))
  base64Encode := fun _ => "ADV"
  keyFromPrivate := fun _ => some 7
  pubX := fun _ => 5
  decodePoint := fun bs => if bs.length = 57 then some (1, 2) else none
  deriveX := fun _ _ => 171
  sha256 := fun _ => (List.range 32).map (fun i => (i : ℤ))
  aesGcmDecrypt := fun _ _ _ => some ((List.range 10).map (fun i => (i : ℤ)))

/-- Oracle `sampleOracle` with a private key that cannot be interpreted as a
scalar: every key-material failure of the identity module. -/
def sampleBadOracle : CryptoOracle :=
  { sampleOracle with keyFromPrivate := fun _ => none }

/-- Oracle `sampleOracle` with the shared-point x-coordinate fixed to `x`, to
evaluate `getECDHKeyDerivation` on chosen coordinates. -/
def sharedOracle (x : ℕ) : CryptoOracle :=
  { sampleOracle with deriveX := fun _ _ => x }

/-- A concrete device before the batch call. -/
def sampleDevice : Device :=
  { id := "dev1", name := "tag 1", privateKey := "KEY", advertismentKey := "OLD" }

/-- Device `sampleDevice` as `getReportsForDevice sampleOracle` returns it: the
advertisement-key field overwritten with the derived key. -/
def sampleDevice2 : Device :=
  { id := "dev1", name := "tag 1", privateKey := "KEY", advertismentKey := "ADV" }

/-- An 83-character payload whose first byte is largest: the chronologically
latest sample report (under `sampleOracle` the decoded date grows with the
first character code). -/
def latePayload : String := String.mk ('b' :: List.replicate 82 'a')

/-- An 83-character payload decoding to the chronologically earliest date. -/
def earlyPayload : String := String.mk (List.replicate 83 'a')

/-- Two raw reports submitted in reverse chronological order. -/
def sampleReports : List RawReport :=
  [{ payload := latePayload, id := "r1", receivedAt := none },
   { payload := earlyPayload, id := "r2", receivedAt := none }]

/-- Every failure of `getAdvertisementKey` is an `InvalidKey` failure: bad
key material is the only thing line 13 of the orchestrator can throw on. -/
theorem getAdvertisementKey_error_invalidKey (o : CryptoOracle) (k : String) (e : ErrKind)
    (h : getAdvertisementKey o k = .error e) : e = .invalidKey := by
  unfold getAdvertisementKey at h
  split at h
  · exact (Except.error.inj h).symm
  · split at h
    · exact (Except.error.inj h).symm
    · split at h
      · exact (Except.error.inj h).symm
      · exact absurd h (by simp)

/-- The only error kinds `decryptPayloadBytes` ever returns: the pipeline
contains no length check, so `malformedPayload` is not among them. -/
theorem decryptPayloadBytes_error_cases (o : CryptoOracle) (pb kb : List ℤ) (err : ErrKind)
    (h : decryptPayloadBytes o pb kb = .error err) :
    err = .invalidKey ∨ err = .invalidPoint ∨ err = .sharedSecretHexError ∨
      err = .authenticationFailed := by
  unfold decryptPayloadBytes at h
  split at h
  · exact Or.inl (Except.error.inj h).symm
  · split at h
    · exact Or.inr (Or.inl (Except.error.inj h).symm)
    · split at h
      · exact Or.inr (Or.inr (Or.inl (Except.error.inj h).symm))
      · split at h
        · exact Or.inr (Or.inr (Or.inr (Except.error.inj h).symm))
        · exact absurd h (by simp)

/-- C2: for every list of raw reports and every private key (and any
behaviour of the trusted primitives), a successful `getReportsForDevice`
returns its decoded reports sorted ascending by the decoded `seenAt` date,
regardless of the submission order of the raw reports. -/
theorem C2_batch_output_sorted_by_seenAt (o : CryptoOracle) (device : Device)
    (reports : List RawReport) (device2 : Device) (out : List DeviceReport)
    (h : getReportsForDevice o device reports = .ok (device2, out)) :
    List.Sorted dateLE out := by
  unfold getReportsForDevice at h
  split at h
  · cases h
  · rw [Except.ok.injEq, Prod.mk.injEq] at h
    rw [← h.2]
    exact List.sorted_insertionSort dateLE _

/-- Witness for C2: a concrete batch submitted in reverse chronological
order still comes out sorted ascending. -/
theorem C2_batch_output_sorted_by_seenAt_witness :
    getReportsForDevice sampleOracle sampleDevice sampleReports =
      .ok (sampleDevice2,
        sortReports (sampleReports.filterMap (decryptReport sampleOracle sampleDevice.privateKey))) ∧
    List.Sorted dateLE
      (sortReports (sampleReports.filterMap (decryptReport sampleOracle sampleDevice.privateKey))) :=
  ⟨rfl, C2_batch_output_sorted_by_seenAt sampleOracle sampleDevice sampleReports sampleDevice2 _ rfl⟩

/-- C3: a per-report decryption failure of any kind only drops that report
(it contributes `none` to the `filterMap`, produces no decoded report, and
the batch still returns `ok` with the other reports, as a permutation of
the per-report successes), while a key-material failure — always
`InvalidKey` — aborts the whole batch and is surfaced to the caller. -/
theorem C3_only_invalid_key_aborts (o : CryptoOracle) (device : Device)
    (reports : List RawReport) :
    (∀ e, getAdvertisementKey o device.privateKey = .error e →
      getReportsForDevice o device reports = .error e ∧ e = .invalidKey) ∧
    (∀ advKey, getAdvertisementKey o device.privateKey = .ok advKey →
      getReportsForDevice o device reports =
        .ok ({ device with advertismentKey := advKey },
          sortReports (reports.filterMap (decryptReport o device.privateKey))) ∧
      (∀ r ∈ reports, ∀ err,
        decryptPayload o r.payload device.privateKey = .error err →
        decryptReport o device.privateKey r = none) ∧
      (sortReports (reports.filterMap (decryptReport o device.privateKey))).Perm
        (reports.filterMap (decryptReport o device.privateKey))) := by
  constructor
  · intro e he
    refine ⟨?_, getAdvertisementKey_error_invalidKey o device.privateKey e he⟩
    unfold getReportsForDevice
    rw [he]
  · intro advKey hk
    refine ⟨?_, ?_, List.perm_insertionSort dateLE _⟩
    · unfold getReportsForDevice
      rw [hk]
    · intro r _ err herr
      unfold decryptReport
      rw [herr]

/-- Witness for C3: under `sampleOracle` the key is accepted and the batch
returns `ok`; under `sampleBadOracle` the same key is rejected and the
whole batch aborts with `InvalidKey`. -/
theorem C3_only_invalid_key_aborts_witness :
    (getAdvertisementKey sampleOracle sampleDevice.privateKey = .ok "ADV" ∧
      getReportsForDevice sampleOracle sampleDevice sampleReports =
        .ok ({ sampleDevice with advertismentKey := "ADV" },
          sortReports
            (sampleReports.filterMap (decryptReport sampleOracle sampleDevice.privateKey)))) ∧
    (getAdvertisementKey sampleBadOracle sampleDevice.privateKey = .error .invalidKey ∧
      getReportsForDevice sampleBadOracle sampleDevice sampleReports = .error .invalidKey) := by
  refine ⟨⟨rfl, ?_⟩, ⟨rfl, ?_⟩⟩
  · exact ((C3_only_invalid_key_aborts sampleOracle sampleDevice sampleReports).2 "ADV" rfl).1
  · exact ((C3_only_invalid_key_aborts sampleBadOracle sampleDevice sampleReports).1
      .invalidKey rfl).1

/-- Counterexample for C4 as stated: the empty payload is shorter than 83
bytes, yet the pipeline fails with `InvalidPoint` (the clamped ephemeral-key
slice is empty and does not decode), not with `MalformedPayload` — there is
no length check in the code. -/
theorem C4_short_payload_counterexample :
    ([] : List ℤ).length < 83 ∧
    decryptPayloadBytes sampleOracle [] [75] = .error .invalidPoint ∧
    decryptPayloadBytes sampleOracle [] [75] ≠ .error .malformedPayload := by
  refine ⟨by decide, rfl, ?_⟩
  intro h
  rw [show decryptPayloadBytes sampleOracle [] [75] = .error .invalidPoint from rfl] at h
  exact absurd (Except.error.inj h) (by decide)

/-- C4 as amended: a raw payload shorter than 83 bytes never fails with
`MalformedPayload` (the code has no length check); whenever it fails, the
failure is one of the kinds of the later pipeline stages.  (Exclusion of the
failed report from the batch, with the batch never crashing, is the
per-report drop of `C3_only_invalid_key_aborts`.) -/
theorem C4_no_malformed_payload_check (o : CryptoOracle)
    (payloadByteArray privateKeyByteArray : List ℤ)
    (h : payloadByteArray.length < 83) :
    decryptPayloadBytes o payloadByteArray privateKeyByteArray ≠ .error .malformedPayload ∧
    ∀ err, decryptPayloadBytes o payloadByteArray privateKeyByteArray = .error err →
      err = .invalidKey ∨ err = .invalidPoint ∨ err = .sharedSecretHexError ∨
        err = .authenticationFailed := by
  constructor
  · intro hbad
    rcases decryptPayloadBytes_error_cases o _ _ _ hbad with h1 | h1 | h1 | h1 <;>
      exact absurd h1 (by decide)
  · exact fun err herr => decryptPayloadBytes_error_cases o _ _ err herr

/-- Witness for C4 (amended) at a concrete one-byte payload. -/
theorem C4_no_malformed_payload_check_witness :
    ([0] : List ℤ).length < 83 ∧
    (decryptPayloadBytes sampleOracle [0] [75] ≠ .error .malformedPayload ∧
      ∀ err, decryptPayloadBytes sampleOracle [0] [75] = .error err →
        err = .invalidKey ∨ err = .invalidPoint ∨ err = .sharedSecretHexError ∨
          err = .authenticationFailed) :=
  ⟨by decide, C4_no_malformed_payload_check sampleOracle [0] [75] (by decide)⟩

/-- C5 is wrong about the code: `getECDHKeyDerivation` renders the shared
x-coordinate with unpadded minimal hex, so the output is NOT always 28
bytes.  x = 1 and x = 2^216 have odd-length hex and make
`hexStringToByteArray` throw; x = 4096 yields 2 bytes and x = 2^215 yields
27 bytes; only top-range coordinates such as x = 2^223 yield 28 bytes.
(Contrast `getAdvertisementKey`, which does pad to 56 hex characters.) -/
theorem C5_shared_secret_not_padded :
    getECDHKeyDerivation (sharedOracle 1) 7 (1, 2) = none ∧
    (getECDHKeyDerivation (sharedOracle 4096) 7 (1, 2)).map List.length = some 2 ∧
    (getECDHKeyDerivation (sharedOracle (2 ^ 215)) 7 (1, 2)).map List.length = some 27 ∧
    getECDHKeyDerivation (sharedOracle (2 ^ 216)) 7 (1, 2) = none ∧
    (getECDHKeyDerivation (sharedOracle (2 ^ 223)) 7 (1, 2)).map List.length = some 28 := by
  decide

/-- C6: the symmetric material is SHA-256 of
sharedSecret ‖ 00 00 00 01 ‖ ephemeralKey, and decryption uses the first 16
bytes of the digest as AES key and (the digest being 32 bytes) the last 16
bytes as initialization vector. -/
theorem C6_kdf_key_iv_split (o : CryptoOracle)
    (secretByteArray ephemeralKeyByteArray symmetricKey encryptedData tag : List ℤ)
    (h : (o.sha256 (secretByteArray ++ [0, 0, 0, 1] ++ ephemeralKeyByteArray)).length = 32) :
    keyDerivation o secretByteArray ephemeralKeyByteArray =
      o.sha256 (secretByteArray ++ [0, 0, 0, 1] ++ ephemeralKeyByteArray) ∧
    decryptEncryptedData o encryptedData symmetricKey tag =
      o.aesGcmDecrypt (symmetricKey.take 16) (symmetricKey.drop 16) (encryptedData ++ tag) ∧
    ((keyDerivation o secretByteArray ephemeralKeyByteArray).take 16).length = 16 ∧
    ((keyDerivation o secretByteArray ephemeralKeyByteArray).drop 16).length = 16 ∧
    (keyDerivation o secretByteArray ephemeralKeyByteArray).take 16 ++
        (keyDerivation o secretByteArray ephemeralKeyByteArray).drop 16 =
      keyDerivation o secretByteArray ephemeralKeyByteArray := by
  have hlen : (keyDerivation o secretByteArray ephemeralKeyByteArray).length = 32 := h
  refine ⟨rfl, rfl, ?_, ?_, List.take_append_drop 16 _⟩
  · rw [List.length_take, hlen]
    decide
  · rw [List.length_drop, hlen]

/-- Witness for C6 at concrete byte lists (the sample digest is 32 bytes). -/
theorem C6_kdf_key_iv_split_witness :
    (sampleOracle.sha256 ([171] ++ [0, 0, 0, 1] ++ [4])).length = 32 ∧
    (keyDerivation sampleOracle [171] [4] =
      sampleOracle.sha256 ([171] ++ [0, 0, 0, 1] ++ [4]) ∧
    decryptEncryptedData sampleOracle [8] [7] [9] =
      sampleOracle.aesGcmDecrypt (List.take 16 [7]) (List.drop 16 [7]) ([8] ++ [9]) ∧
    ((keyDerivation sampleOracle [171] [4]).take 16).length = 16 ∧
    ((keyDerivation sampleOracle [171] [4]).drop 16).length = 16 ∧
    (keyDerivation sampleOracle [171] [4]).take 16 ++
        (keyDerivation sampleOracle [171] [4]).drop 16 =
      keyDerivation sampleOracle [171] [4]) :=
  ⟨by decide, C6_kdf_key_iv_split sampleOracle [171] [4] [7] [8] [9] (by decide)⟩

/-- C7 is wrong about the code: `readUInt32BE` is built from JavaScript's
signed 32-bit `<<` and `|`, so a first byte with the high bit set decodes
to a NEGATIVE offset and a date BEFORE the 2001 epoch: bytes 80 00 00 00
(unsigned 2^31) decode to -2^31 seconds.  Low values decode as claimed. -/
theorem C7_seen_time_signed_int32 :
    readUInt32BE [128, 0, 0, 0] 0 = -2147483648 ∧
    decodeSeenTime [128, 0, 0, 0] = epoch2001ms + (-2147483648) * 1000 ∧
    decodeSeenTime [128, 0, 0, 0] < epoch2001ms ∧
    readUInt32BE [0, 0, 0, 1] 0 = 1 ∧
    decodeSeenTime [0, 0, 0, 1] = epoch2001ms + 1 * 1000 := by
  decide

/-- Counterexample for C9 as stated: the batch call does not leave the
device record unchanged — the returned device differs from the input device
in its advertisement-key field. -/
theorem C9_device_mutation_counterexample :
    getReportsForDevice sampleOracle sampleDevice [] = .ok (sampleDevice2, []) ∧
    sampleDevice2.advertismentKey ≠ sampleDevice.advertismentKey :=
  ⟨rfl, by decide⟩

/-- C9 as amended: the batch call overwrites exactly the device's
advertisement-key field (with the derived advertisement key) and leaves
id, name and private key unchanged; each output report carries its source
report's payload, id and receivedAt, with a freshly decoded payload
attached. -/
theorem C9_mutation_characterised (o : CryptoOracle) (device : Device)
    (reports : List RawReport) (device2 : Device) (out : List DeviceReport)
    (h : getReportsForDevice o device reports = .ok (device2, out)) :
    device2.id = device.id ∧ device2.name = device.name ∧
    device2.privateKey = device.privateKey ∧
    getAdvertisementKey o device.privateKey = .ok device2.advertismentKey ∧
    ∀ r2 ∈ out, ∃ r ∈ reports,
      r2.payload = r.payload ∧ r2.id = r.id ∧ r2.receivedAt = r.receivedAt ∧
      ∃ dp, decryptPayload o r.payload device.privateKey = .ok dp ∧
        r2.decrypedPayload = some dp := by
  unfold getReportsForDevice at h
  split at h
  · cases h
  · rename_i advKey hk
    rw [Except.ok.injEq, Prod.mk.injEq] at h
    obtain ⟨hdev, hout⟩ := h
    subst hdev
    subst hout
    refine ⟨rfl, rfl, rfl, hk, ?_⟩
    intro r2 hr2
    rw [show sortReports (reports.filterMap (decryptReport o device.privateKey)) =
        List.insertionSort dateLE (reports.filterMap (decryptReport o device.privateKey))
        from rfl, List.mem_insertionSort, List.mem_filterMap] at hr2
    obtain ⟨r, hr, hsome⟩ := hr2
    refine ⟨r, hr, ?_⟩
    unfold decryptReport at hsome
    split at hsome
    · rename_i dp hd
      obtain rfl := (Option.some.inj hsome).symm
      exact ⟨rfl, rfl, rfl, dp, hd, rfl⟩
    · cases hsome

/-- Witness for C9 (amended) at the concrete sample batch. -/
theorem C9_mutation_characterised_witness :
    getReportsForDevice sampleOracle sampleDevice sampleReports =
      .ok (sampleDevice2,
        sortReports (sampleReports.filterMap (decryptReport sampleOracle sampleDevice.privateKey))) ∧
    (sampleDevice2.id = sampleDevice.id ∧ sampleDevice2.name = sampleDevice.name ∧
      sampleDevice2.privateKey = sampleDevice.privateKey ∧
      getAdvertisementKey sampleOracle sampleDevice.privateKey =
        .ok sampleDevice2.advertismentKey ∧
      ∀ r2 ∈ sortReports
          (sampleReports.filterMap (decryptReport sampleOracle sampleDevice.privateKey)),
        ∃ r ∈ sampleReports,
          r2.payload = r.payload ∧ r2.id = r.id ∧ r2.receivedAt = r.receivedAt ∧
          ∃ dp, decryptPayload sampleOracle r.payload sampleDevice.privateKey = .ok dp ∧
            r2.decrypedPayload = some dp) :=
  ⟨rfl, C9_mutation_characterised sampleOracle sampleDevice sampleReports sampleDevice2 _ rfl⟩

namespace Fusion

/-- Membership in the validity filter. -/
theorem mem_validOf {rl : List DeviceReport} {r : DeviceReport} :
    r ∈ validOf rl ↔ r ∈ rl ∧ IsValidReport r := by
  simp [validOf, List.mem_filter]

/-- The sort stage only permutes the valid reports. -/
theorem sortValid_perm (rl : List DeviceReport) : (sortValid rl).Perm (validOf rl) :=
  List.perm_insertionSort moreRecent (validOf rl)

/-- The sort stage is sorted descending by date. -/
theorem sortValid_sorted (rl : List DeviceReport) : List.Sorted moreRecent (sortValid rl) :=
  List.sorted_insertionSort moreRecent (validOf rl)

/-- A point is at haversine distance 0 from itself. -/
theorem haversineMeters_self (la lo : ℝ) : haversineMeters la lo la lo = 0 := by
  simp [haversineMeters, toRad, atan2, Real.sqrt_one, Real.arctan_zero]

/-- Every report weight is strictly positive: `max 1 accuracy ≥ 1` and
`0.5 ^ ageHours > 0` for every real exponent. -/
theorem weightAt_pos (now : ℝ) (r : DeviceReport) : 0 < weightAt now r := by
  have h1 : (0 : ℝ) < 1 / max 1 (rAcc r) :=
    div_pos one_pos (lt_of_lt_of_le one_pos (le_max_left 1 (rAcc r)))
  have h2 : (0 : ℝ) < (0.5 : ℝ) ^ ((now - (rTime r : ℝ)) / 3600000) :=
    Real.rpow_pos_of_pos (by norm_num) _
  exact mul_pos h1 h2

/-- The source's weight computation is exactly the specification's
formula. -/
theorem specWeight_eq_weightAt : specWeight = weightAt := rfl

/-- Report `sampleValidReport` passes the validity filter. -/
theorem sampleValidReport_valid : IsValidReport sampleValidReport := by
  refine ⟨rfl, rfl, rfl, rfl, ?_, ?_⟩ <;>
    norm_num [rLat, rLon, locOf, sampleValidReport]

/-- Concrete evaluation of the filter-and-sort stage on the singleton
sample. -/
theorem sortValid_sample : sortValid [sampleValidReport] = [sampleValidReport] := by
  have hval : validOf [sampleValidReport] = [sampleValidReport] := by
    unfold validOf
    rw [List.filter_cons, List.filter_nil,
      if_pos (@decide_eq_true (IsValidReport sampleValidReport)
        (Classical.propDecidable _) sampleValidReport_valid)]
  unfold sortValid
  rw [hval]
  simp

/-- C8: fusion over an empty report set or one with no valid report returns
`none`; the embedding is a total function, so no input can raise. -/
theorem C8_no_valid_reports_none (now : ℝ) (rl : List DeviceReport)
    (h : ∀ r ∈ rl, ¬ IsValidReport r) : calculateBestLocation now rl = none := by
  have hv : validOf rl = [] := by
    unfold validOf
    rw [List.filter_eq_nil_iff]
    intro a ha
    simpa using h a ha
  have hs : sortValid rl = [] := by
    unfold sortValid
    rw [hv]
    rfl
  simp only [calculateBestLocation, hs]

/-- Witness for C8 at a concrete all-invalid report set. -/
theorem C8_no_valid_reports_none_witness :
    (∀ r ∈ [sampleInvalidReport], ¬ IsValidReport r) ∧
    calculateBestLocation 0 [sampleInvalidReport] = none := by
  have h : ∀ r ∈ [sampleInvalidReport], ¬ IsValidReport r := by
    intro r hr
    rw [List.mem_singleton] at hr
    subst hr
    rintro ⟨h1, -⟩
    simp [locOf, sampleInvalidReport] at h1
  exact ⟨h, C8_no_valid_reports_none 0 [sampleInvalidReport] h⟩

/-- C1: whenever the report set holds a valid report, fusion anchors at a
most recent valid report, builds the cluster as exactly the valid reports
within 500 haversine meters of the anchor's location, and returns the
weight-normalised centroid with weight
`(1 / max(1, accuracy)) * 0.5 ^ ageHours` (continuous age in hours at
fusion time), together with the cluster and valid-report counts. -/
theorem C1_cluster_weighted_centroid (now : ℝ) (rl : List DeviceReport)
    (h : ∃ r ∈ rl, IsValidReport r) :
    ∃ anchor, anchor ∈ rl ∧ IsValidReport anchor ∧
      (∀ r ∈ rl, IsValidReport r → rTime r ≤ rTime anchor) ∧
      (clusterOf rl).Perm (clusterAround anchor (validOf rl)) ∧
      calculateBestLocation now rl = some
        { lat := ((clusterAround anchor (validOf rl)).map
              (fun r => rLat r * specWeight now r)).sum /
            ((clusterAround anchor (validOf rl)).map (specWeight now)).sum
          lon := ((clusterAround anchor (validOf rl)).map
              (fun r => rLon r * specWeight now r)).sum /
            ((clusterAround anchor (validOf rl)).map (specWeight now)).sum
          reportsInCluster := (clusterAround anchor (validOf rl)).length
          totalValidReports := (validOf rl).length } := by
  obtain ⟨r0, hr0, hv0⟩ := h
  have hperm : (sortValid rl).Perm (validOf rl) := sortValid_perm rl
  cases hsv : sortValid rl with
  | nil =>
    exfalso
    have hr0v : r0 ∈ validOf rl := mem_validOf.mpr ⟨hr0, hv0⟩
    rw [← hperm.mem_iff, hsv] at hr0v
    exact absurd hr0v (List.not_mem_nil r0)
  | cons newest rest =>
    have hmem : newest ∈ validOf rl := by
      rw [← hperm.mem_iff, hsv]
      exact List.mem_cons_self _ _
    obtain ⟨hmemrl, hvnewest⟩ := mem_validOf.mp hmem
    have hsorted := sortValid_sorted rl
    rw [hsv, List.sorted_cons] at hsorted
    have hpermc : (newest :: rest).Perm (validOf rl) := hsv ▸ hperm
    have hfil : (clusterAround newest (newest :: rest)).Perm
        (clusterAround newest (validOf rl)) := hpermc.filter _
    refine ⟨newest, hmemrl, hvnewest, ?_, ?_, ?_⟩
    · intro r hr hvr
      have hrs : r ∈ sortValid rl := by
        rw [hperm.mem_iff]
        exact mem_validOf.mpr ⟨hr, hvr⟩
      rw [hsv, List.mem_cons] at hrs
      rcases hrs with rfl | hmem2
      · exact le_refl _
      · exact hsorted.1 r hmem2
    · simp only [clusterOf, hsv]
      exact hfil
    · rw [specWeight_eq_weightAt]
      simp only [calculateBestLocation, hsv, Option.some.injEq, FusedLocation.mk.injEq]
      refine ⟨?_, ?_, ?_, hpermc.length_eq⟩
      · rw [(hfil.map (fun r => rLat r * weightAt now r)).sum_eq,
          (hfil.map (weightAt now)).sum_eq]
      · rw [(hfil.map (fun r => rLon r * weightAt now r)).sum_eq,
          (hfil.map (weightAt now)).sum_eq]
      · exact hfil.length_eq

/-- Witness for C1 at a concrete singleton report set. -/
theorem C1_cluster_weighted_centroid_witness :
    (∃ r ∈ [sampleValidReport], IsValidReport r) ∧
    (∃ anchor, anchor ∈ [sampleValidReport] ∧ IsValidReport anchor ∧
      (∀ r ∈ [sampleValidReport], IsValidReport r → rTime r ≤ rTime anchor) ∧
      (clusterOf [sampleValidReport]).Perm
        (clusterAround anchor (validOf [sampleValidReport])) ∧
      calculateBestLocation 0 [sampleValidReport] = some
        { lat := ((clusterAround anchor (validOf [sampleValidReport])).map
              (fun r => rLat r * specWeight 0 r)).sum /
            ((clusterAround anchor (validOf [sampleValidReport])).map (specWeight 0)).sum
          lon := ((clusterAround anchor (validOf [sampleValidReport])).map
              (fun r => rLon r * specWeight 0 r)).sum /
            ((clusterAround anchor (validOf [sampleValidReport])).map (specWeight 0)).sum
          reportsInCluster := (clusterAround anchor (validOf [sampleValidReport])).length
          totalValidReports := (validOf [sampleValidReport]).length }) :=
  ⟨⟨sampleValidReport, List.mem_singleton_self _, sampleValidReport_valid⟩,
    C1_cluster_weighted_centroid 0 [sampleValidReport]
      ⟨sampleValidReport, List.mem_singleton_self _, sampleValidReport_valid⟩⟩

/-- C10: whenever fusion returns a result, the anchor itself is in the
cluster (its distance to itself is 0 ≤ 500), so the cluster count is
between 1 and the valid-report count, the weight sum is strictly positive
in exact arithmetic, and the returned fields are the corresponding
well-defined quotients and counts. -/
theorem C10_cluster_nonempty_weight_sum_positive (now : ℝ) (rl : List DeviceReport)
    (h : calculateBestLocation now rl ≠ none) :
    1 ≤ (clusterOf rl).length ∧
    (clusterOf rl).length ≤ (validOf rl).length ∧
    0 < ((clusterOf rl).map (weightAt now)).sum ∧
    ∀ fl, calculateBestLocation now rl = some fl →
      fl.reportsInCluster = (clusterOf rl).length ∧
      fl.totalValidReports = (validOf rl).length ∧
      fl.lat = ((clusterOf rl).map (fun r => rLat r * weightAt now r)).sum /
        ((clusterOf rl).map (weightAt now)).sum := by
  cases hsv : sortValid rl with
  | nil =>
    exact absurd (by simp only [calculateBestLocation, hsv]) h
  | cons newest rest =>
    have hco : clusterOf rl = clusterAround newest (newest :: rest) := by
      simp only [clusterOf, hsv]
    have hmemc : newest ∈ clusterAround newest (newest :: rest) := by
      unfold clusterAround
      refine List.mem_filter.mpr ⟨List.mem_cons_self _ _, ?_⟩
      refine @decide_eq_true _ (Classical.propDecidable _) ?_
      rw [haversineMeters_self]
      norm_num
    have hne : clusterOf rl ≠ [] := by
      rw [hco]
      exact List.ne_nil_of_mem hmemc
    refine ⟨?_, ?_, ?_, ?_⟩
    · rw [hco]
      exact List.length_pos.mpr (List.ne_nil_of_mem hmemc)
    · rw [hco]
      calc (clusterAround newest (newest :: rest)).length
          ≤ (newest :: rest).length := List.length_filter_le _ _
        _ = (validOf rl).length := by rw [← hsv]; exact (sortValid_perm rl).length_eq
    · refine List.sum_pos _ ?_ ?_
      · intro x hx
        obtain ⟨r, _, rfl⟩ := List.mem_map.mp hx
        exact weightAt_pos now r
      · simpa using hne
    · intro fl hfl
      simp only [calculateBestLocation, hsv, Option.some.injEq] at hfl
      rw [← hfl, hco]
      exact ⟨rfl, by rw [← hsv]; exact ((sortValid_perm rl).length_eq).symm ▸ rfl, rfl⟩

/-- Witness for C10 at a concrete singleton report set. -/
theorem C10_cluster_nonempty_weight_sum_positive_witness :
    Fusion.calculateBestLocation 0 [sampleValidReport] ≠ none ∧
    (1 ≤ (clusterOf [sampleValidReport]).length ∧
      (clusterOf [sampleValidReport]).length ≤ (validOf [sampleValidReport]).length ∧
      0 < ((clusterOf [sampleValidReport]).map (weightAt 0)).sum ∧
      ∀ fl, calculateBestLocation 0 [sampleValidReport] = some fl →
        fl.reportsInCluster = (clusterOf [sampleValidReport]).length ∧
        fl.totalValidReports = (validOf [sampleValidReport]).length ∧
        fl.lat = ((clusterOf [sampleValidReport]).map
            (fun r => rLat r * weightAt 0 r)).sum /
          ((clusterOf [sampleValidReport]).map (weightAt 0)).sum) := by
  have hne : calculateBestLocation 0 [sampleValidReport] ≠ none := by
    simp only [calculateBestLocation, sortValid_sample]
    simp
  exact ⟨hne, C10_cluster_nonempty_weight_sum_positive 0 [sampleValidReport] hne⟩

end Fusion

end MyFindr
